import Mathlib

/-!
Verification development for the CLIF data-dictionary generator
(`src/llm_context/generate_data_dictionary.py`).

The Python module is embedded shallowly: each method of
`CLIFDataDictionaryGenerator` becomes a Lean definition operating on
`String`/list data.  Library calls are modelled explicitly:

* `json.loads` is `jsonLoads`, a total recursive-descent JSON decoder
  returning `Option JsonValue` (numbers restricted to integers; floating
  point is outside the scope of this development, and no property below
  depends on numeric payloads);
* Python string methods (`strip`, `rstrip`, `split`, `replace`, `upper`,
  `in`, `startswith`, `endswith`) are the `py*` helpers;
* the two regex scans of `parse_sql_file` are I/O-boundary front-ends: the
  extractor is modelled as a function of their match lists (table name ×
  column `(name, type, comment)` triples), exactly the data the Python
  loops consume.  The column regex `([^']+)` guarantees a comment group
  never contains an apostrophe; theorems that need this fact carry it as
  an explicit hypothesis.
* Python truthiness is `pyFalsy` / `pyFalsyOpt`, and a crash of the run
  (e.g. `.get` on a non-dict) is `none` in `Option`.
-/

namespace CLIF

/-- ASCII apostrophe, written via its code point so that string literals in
this file stay free of quote characters. -/
def apos : Char := Char.ofNat 39

/-- JSON values as decoded by the Python `json` module (integers only). -/
inductive JsonValue where
  | str (s : String)
  | num (n : Int)
  | bool (b : Bool)
  | null
  | arr (xs : List JsonValue)
  | obj (kvs : List (String × JsonValue))
deriving Repr

/-- Strip, from both ends, every character satisfying `p` (the semantics of
Python `str.strip(chars)` nucleus). -/
def listStripP (p : Char → Bool) (l : List Char) : List Char :=
  ((l.dropWhile p).reverse.dropWhile p).reverse

/-- Python `s.strip(chars)`: remove leading and trailing characters drawn
from the set `chars`. -/
def pyStrip (chars : List Char) (s : String) : String :=
  String.mk (listStripP (fun c => chars.contains c) s.data)

/-- Python `s.rstrip(chars)`: remove trailing characters drawn from `chars`. -/
def pyRstrip (chars : List Char) (s : String) : String :=
  String.mk ((s.data.reverse.dropWhile (fun c => chars.contains c)).reverse)

/-- ASCII whitespace, matching what Python `str.strip()` removes on the
inputs in scope. -/
def isWsChar (c : Char) : Bool :=
  c == ' ' || c == '\t' || c == '\n' || c == '\r' || c == Char.ofNat 11 || c == Char.ofNat 12

/-- Python `s.strip()` (no argument): trim whitespace from both ends. -/
def pyStripWS (s : String) : String :=
  String.mk (listStripP isWsChar s.data)

/-- Split a character list at every occurrence of `sep`; Python `str.split`
semantics, so the empty input yields one empty piece. -/
def listSplit (sep : Char) (l : List Char) : List (List Char) :=
  l.foldr
    (fun c acc =>
      match acc with
      | [] => [[c]]
      | cur :: rest => if c == sep then [] :: cur :: rest else (c :: cur) :: rest)
    [[]]

/-- Python `s.split(sep)` for a one-character separator. -/
def pySplit (sep : Char) (s : String) : List String :=
  (listSplit sep s.data).map String.mk

/-- Substring test on character lists, by checking every starting offset. -/
def listContainsSub (pat l : List Char) : Bool :=
  (List.range (l.length + 1)).any (fun i => pat.isPrefixOf (l.drop i))

/-- Python `sub in s` on strings. -/
def pyContains (s sub : String) : Bool :=
  listContainsSub sub.data s.data

/-- Python `c in s` for a single character. -/
def pyContainsChar (s : String) (c : Char) : Bool :=
  s.data.contains c

/-- Python `s.upper()` (ASCII case mapping suffices for the DDL inputs). -/
def pyUpper (s : String) : String :=
  String.mk (s.data.map Char.toUpper)

/-- Python `s.startswith(pre)`. -/
def pyStartsWith (s pre : String) : Bool :=
  pre.data.isPrefixOf s.data

/-- Python `s.endswith(suf)`. -/
def pyEndsWith (s suf : String) : Bool :=
  suf.data.reverse.isPrefixOf s.data.reverse

/-- Replace, left to right and without overlap, each occurrence of `pat`
(the recursion is fuelled by the input length, which bounds the number of
steps for the non-empty patterns used here). -/
def listReplace : Nat → List Char → List Char → List Char → List Char
  | 0, _, _, s => s
  | _ + 1, _, _, [] => []
  | fuel + 1, pat, rep, c :: rest =>
    if pat.isPrefixOf (c :: rest) && !pat.isEmpty then
      rep ++ listReplace fuel pat rep ((c :: rest).drop pat.length)
    else
      c :: listReplace fuel pat rep rest

/-- Python `s.replace(pat, rep)`. -/
def pyReplace (s pat rep : String) : String :=
  String.mk (listReplace (s.data.length + 1) pat.data rep.data s.data)

/-- JSON insignificant whitespace. -/
def skipWs (l : List Char) : List Char :=
  l.dropWhile (fun c => c == ' ' || c == '\t' || c == '\n' || c == '\r')

/-- Escape letters recognised inside a JSON string literal, with the
character each denotes. -/
def escapeTable : List (Char × Char) :=
  [('"', '"'), ('\\', '\\'), ('/', '/'), ('n', '\n'),
   ('t', '\t'), ('r', '\r'), ('b', Char.ofNat 8), ('f', Char.ofNat 12)]

/-- Decode one character escape inside a JSON string literal. -/
def unescapeChar (c : Char) : Option Char :=
  (escapeTable.find? (fun p => p.1 == c)).map Prod.snd

/-- Parse the body of a JSON string literal, after its opening quote. -/
def parseStringBody : List Char → List Char → Option (String × List Char)
  | _, [] => none
  | acc, '"' :: rest => some (String.mk acc.reverse, rest)
  | _, ['\\'] => none
  | acc, '\\' :: e :: rest =>
    match unescapeChar e with
    | some ch => parseStringBody (ch :: acc) rest
    | none => none
  | acc, c :: rest => parseStringBody (c :: acc) rest

/-- Digits to a natural number. -/
def digitsToNat (l : List Char) : Nat :=
  l.foldl (fun n c => n * 10 + (c.toNat - 48)) 0

/-- Parse a (integer) JSON number. -/
def parseNum (l : List Char) : Option (JsonValue × List Char) :=
  let (neg, l2) :=
    match l with
    | '-' :: rest => (true, rest)
    | _ => (false, l)
  let ds := l2.takeWhile (fun c => c.isDigit)
  let rest := l2.dropWhile (fun c => c.isDigit)
  if ds.isEmpty then none
  else
    let n : Int := Int.ofNat (digitsToNat ds)
    some (.num (if neg then -n else n), rest)

mutual

/-- Parse one JSON value; `fuel` bounds nesting and sequence length. -/
def parseValue : Nat → List Char → Option (JsonValue × List Char)
  | 0, _ => none
  | fuel + 1, l =>
    match skipWs l with
    | [] => none
    | '"' :: rest =>
      match parseStringBody [] rest with
      | some (s, r) => some (.str s, r)
      | none => none
    | '{' :: rest =>
      match skipWs rest with
      | '}' :: r2 => some (.obj [], r2)
      | r2 =>
        match parseMembers fuel r2 with
        | some (kvs, r3) => some (.obj kvs, r3)
        | none => none
    | '[' :: rest =>
      match skipWs rest with
      | ']' :: r2 => some (.arr [], r2)
      | r2 =>
        match parseElems fuel r2 with
        | some (xs, r3) => some (.arr xs, r3)
        | none => none
    | 't' :: 'r' :: 'u' :: 'e' :: rest => some (.bool true, rest)
    | 'f' :: 'a' :: 'l' :: 's' :: 'e' :: rest => some (.bool false, rest)
    | 'n' :: 'u' :: 'l' :: 'l' :: rest => some (.null, rest)
    | l2 => parseNum l2

/-- Parse the members of a JSON object, up to and including its brace. -/
def parseMembers : Nat → List Char → Option (List (String × JsonValue) × List Char)
  | 0, _ => none
  | fuel + 1, l =>
    match skipWs l with
    | '"' :: rest =>
      match parseStringBody [] rest with
      | some (k, r1) =>
        match skipWs r1 with
        | ':' :: r2 =>
          match parseValue fuel r2 with
          | some (v, r3) =>
            match skipWs r3 with
            | ',' :: r4 =>
              match parseMembers fuel r4 with
              | some (kvs, r5) => some ((k, v) :: kvs, r5)
              | none => none
            | '}' :: r4 => some ([(k, v)], r4)
            | _ => none
          | none => none
        | _ => none
      | none => none
    | _ => none

/-- Parse the elements of a JSON array, up to and including its bracket. -/
def parseElems : Nat → List Char → Option (List JsonValue × List Char)
  | 0, _ => none
  | fuel + 1, l =>
    match parseValue fuel l with
    | some (v, r1) =>
      match skipWs r1 with
      | ',' :: r2 =>
        match parseElems fuel r2 with
        | some (xs, r3) => some (v :: xs, r3)
        | none => none
      | ']' :: r2 => some ([v], r2)
      | _ => none
    | none => none

end

/-- Model of `json.loads`: decode the whole input or fail. -/
def jsonLoads (s : String) : Option JsonValue :=
  match parseValue (s.length + 2) s.data with
  | some (v, rest) => if (skipWs rest).isEmpty then some v else none
  | none => none

/-- Surround a string with apostrophes, as Python `repr` does on the plain
strings appearing here (escape corner cases are not exercised). -/
def quoteS (s : String) : String :=
  String.singleton apos ++ s ++ String.singleton apos

/-- Comma-space joining used by Python container printing. -/
def joinComma (l : List String) : String :=
  String.intercalate ", " l

/-- Python `repr` on decoded JSON data. -/
def pyRepr : JsonValue → String
  | .str s => quoteS s
  | .num n => toString n
  | .bool b => if b then "True" else "False"
  | .null => "None"
  | .arr xs => "[" ++ joinComma (xs.attach.map (fun x => pyRepr x.1)) ++ "]"
  | .obj kvs =>
    "\x7b" ++
      joinComma (kvs.attach.map (fun p => quoteS p.1.1 ++ ": " ++ pyRepr p.1.2)) ++ "\x7d"
decreasing_by
  · have := List.sizeOf_lt_of_mem x.2
    simp at this ⊢
    omega
  · have h1 := List.sizeOf_lt_of_mem p.2
    obtain ⟨q, hq⟩ := p
    obtain ⟨a, b⟩ := q
    simp at h1 ⊢
    omega

/-- Python `str` on decoded JSON data (identity on strings, `repr` on
containers, `True`/`False`/`None` on the rest). -/
def pyStr : JsonValue → String
  | .str s => s
  | v => pyRepr v

/-- Python truthiness of a decoded JSON value. -/
def pyFalsy : JsonValue → Bool
  | .str s => s == ""
  | .num n => n == 0
  | .bool b => !b
  | .null => true
  | .arr xs => xs.isEmpty
  | .obj kvs => kvs.isEmpty

/-- Python `permissible == "No restriction"`: true only for that string. -/
def isNoRestriction : JsonValue → Bool
  | .str s => s == "No restriction"
  | _ => false

/-- First-match lookup in an association list (Python `dict.get` for the
duplicate-free dictionaries modelled here). -/
def lookupAssoc {α : Type} : List (String × α) → String → Option α
  | [], _ => none
  | p :: rest, k => if p.1 == k then some p.2 else lookupAssoc rest k

/-- Python `comment_data.get(key, dflt)`: `none` models the `AttributeError`
raised when the receiver is not a dict; duplicate JSON keys keep the last
binding, as `json.loads` does. -/
def pyGet (v : JsonValue) (key : String) (dflt : JsonValue) : Option JsonValue :=
  match v with
  | .obj kvs => some ((((kvs.reverse.find? (fun p => p.1 == key)).map Prod.snd)).getD dflt)
  | _ => none

/-- Python truthiness of `categorical_values` (`None` or an empty list are
falsy). -/
def pyFalsyOpt : Option (List String) → Bool
  | none => true
  | some [] => true
  | some (_ :: _) => false

/-- The `mcide_files` table of `load_mcide_mappings`: mCIDE identifier to
relative CSV path (static configuration data). -/
def mcide_files : List (String × String) :=
  [("patient_race_categories", "patient/clif_patient_race_categories.csv"),
   ("patient_ethnicity_categories", "patient/clif_patient_ethinicity_categories.csv"),
   ("patient_sex_categories", "patient/clif_patient_sex_categories.csv"),
   ("patient_language_categories", "patient/clif_patient_language_categories.csv"),
   ("vitals_categories", "vitals/clif_vitals_categories.csv"),
   ("lab_categories", "labs/clif_lab_categories.csv"),
   ("lab_order_categories", "labs/clif_labs_order_categories.csv"),
   ("adt_location_categories", "adt/clif_adt_location_categories.csv"),
   ("adt_location_type", "adt/clif_adt_location_type.csv"),
   ("adt_hospital_type", "adt/clif_adt_hospital_type.csv"),
   ("respiratory_device_categories", "respiratory_support/clif_respiratory_support_device_categories.csv"),
   ("respiratory_mode_categories", "respiratory_support/clif_respiratory_support_mode_categories.csv"),
   ("medication_continuous_categories", "medication_admin_continuous/clif_medication_admin_continuous_med_categories.csv"),
   ("medication_intermittent_categories", "medication_admin_intermittent/clif_medication_admin_intermittent_med_categories.csv"),
   ("microbiology_culture_fluid_categories", "microbiology_culture/clif_microbiology_culture_fluid_categories.csv"),
   ("microbiology_culture_method_categories", "microbiology_culture/clif_microbiology_culture_method_categories.csv"),
   ("microbiology_culture_organism_categories", "microbiology_culture/clif_microbiology_culture_organism_categories.csv"),
   ("microbiology_culture_organism_groups", "microbiology_culture/clif_microbiology_culture_organism_groups.csv"),
   ("hospitalization_admission_type_categories", "hospitalization/clif_hospitalization_admission_type_categories.csv"),
   ("hospitalization_discharge_categories", "hospitalization/clif_hospitalization_discharge_categories.csv"),
   ("code_status_categories", "code_status/clif_code_status_categories.csv"),
   ("crrt_therapy_mode_categories", "crrt_therapy/clif_crrt_therapy_mode_categories.csv"),
   ("ecmo_mcs_groups", "ecmo/clif_ecmo_mcs_groups.csv"),
   ("invasive_hemodynamics_measure_categories", "invasive_hemodynamics/clif_invasive_hemodynamics_measure_categories.csv"),
   ("key_icu_orders_categories", "key_icu_orders/clif_key_icu_orders_categories.csv"),
   ("patient_assessment_categories", "patient_assessments/clif_patient_assessment_categories.csv"),
   ("position_categories", "postion/clif_position_categories.csv"),
   ("microbiology_nonculture_fluid_category", "microbiology_nonculture/clif_microbiology_nonculture_fluid_category.csv"),
   ("microbiology_nonculture_method_category", "microbiology_nonculture/clif_microbiology_nonculture_method_category.csv"),
   ("microbiology_nonculture_result_category", "microbiology_nonculture/clif_microbiology_nonculture_result_category.csv"),
   ("microbiology_susceptibility_antibiotics_category", "microbiology_susceptibility/clif_microbiology_susceptibility_antibiotics_category.csv"),
   ("microbiology_susceptibility_category", "microbiology_susceptibility/clif_microbiology_susceptibility_category.csv")]

/-- The body of `_load_csv_values`: the first cell of each data row (the CSV
library boundary delivers the rows already split into cells, header row
removed), stripped, appended when non-empty. -/
def loadCsvValues (rows : List (List String)) : List String :=
  rows.foldl
    (fun values row =>
      match row.head? with
      | some firstCol =>
        if firstCol != "" && pyStripWS firstCol != "" then values ++ [pyStripWS firstCol]
        else values
      | none => values)
    []

/-- The `field_mappings` table of `get_mcide_values`: column name to mCIDE
identifier (static configuration data). -/
def field_mappings : List (String × String) :=
  [("race_category", "patient_race_categories"),
   ("ethnicity_category", "patient_ethnicity_categories"),
   ("sex_category", "patient_sex_categories"),
   ("language_category", "patient_language_categories"),
   ("vital_category", "vitals_categories"),
   ("lab_category", "lab_categories"),
   ("lab_order_category", "lab_order_categories"),
   ("location_category", "adt_location_categories"),
   ("location_type", "adt_location_type"),
   ("hospital_type", "adt_hospital_type"),
   ("device_category", "respiratory_device_categories"),
   ("mode_category", "respiratory_mode_categories"),
   ("med_category", "medication_continuous_categories"),
   ("fluid_category", "microbiology_culture_fluid_categories"),
   ("method_category", "microbiology_culture_method_categories"),
   ("organism_category", "microbiology_culture_organism_categories"),
   ("organism_group", "microbiology_culture_organism_groups"),
   ("admission_type_category", "hospitalization_admission_type_categories"),
   ("discharge_category", "hospitalization_discharge_categories"),
   ("code_status_category", "code_status_categories"),
   ("crrt_mode_category", "crrt_therapy_mode_categories"),
   ("mcs_group", "ecmo_mcs_groups"),
   ("measure_category", "invasive_hemodynamics_measure_categories"),
   ("order_category", "key_icu_orders_categories"),
   ("assessment_category", "patient_assessment_categories"),
   ("position_category", "position_categories")]

/-- The string `COMMENT` followed by a space and an apostrophe, the pattern
removed by `parse_sql_comment`. -/
def commentPat : String := "COMMENT " ++ String.singleton apos

/-- The destructive preprocessing of `parse_sql_comment`:
`comment.replace("COMMENT \x27", "").rstrip("\x27")`. -/
def commentTransform (c : String) : String :=
  pyRstrip [apos] (pyReplace c commentPat "")

/-- Method `parse_sql_comment`: try `json.loads` on the preprocessed text;
on any decode failure fall back to a dict carrying the preprocessed text as
description and the literal `No restriction` as permissible. -/
def parse_sql_comment (comment : String) : JsonValue :=
  match jsonLoads (commentTransform comment) with
  | some v => v
  | none =>
    .obj [("description", .str (commentTransform comment)),
          ("permissible", .str "No restriction")]

/-- The split-strip-filter pipeline of the bracketed branch of
`extract_permissible_values`. -/
def bracketValues (s : String) : List String :=
  ((pySplit ',' (pyStrip ['[', ']'] s)).map (pyStrip [' ', '"'])).filter (fun v => v != "")

/-- Method `extract_permissible_values`: normalize the decoded permissible
field into a concrete list of values, or `none`. -/
def extract_permissible_values (permissible : JsonValue) : Option (List String) :=
  if pyFalsy permissible || isNoRestriction permissible then none
  else
    match permissible with
    | .arr xs => some ((xs.filter (fun v => !pyFalsy v)).map pyStr)
    | _ =>
      let s := pyStr permissible
      if pyStartsWith s "[" && pyEndsWith s "]" then
        some (bracketValues s)
      else if pyContainsChar s ',' && !(pyStartsWith s "http") then
        some (((pySplit ',' s).map pyStripWS).filter
          (fun v => v != "" && !(pyStartsWith v "http")))
      else none

/-- Method `get_mcide_values`: map the column name through `field_mappings`
and, when the loaded registry holds the identifier, return its list. -/
def get_mcide_values (mcide_mappings : List (String × List String))
    (_table_name field_name : String) : Option (List String) :=
  match lookupAssoc field_mappings field_name with
  | some mcide_key =>
    if mcide_key != "" && mcide_mappings.any (fun p => p.1 == mcide_key) then
      lookupAssoc mcide_mappings mcide_key
    else none
  | none => none

/-- Method `determine_field_type` (its `comment_data` parameter is unused by
the Python body but kept for fidelity). -/
def determine_field_type (sql_type field_name : String) (_comment_data : JsonValue) : String :=
  let t := pyUpper sql_type
  if pyContains t "DATETIME" || pyContains t "TIMESTAMP" then "datetime"
  else if pyContains t "DATE" then
    if pyContains field_name "birth_date" then "date" else "datetime"
  else if pyContains t "INT" || pyContains t "FLOAT" || pyContains t "DOUBLE"
      || pyContains t "DECIMAL" then "numeric"
  else if pyContains t "BOOL" then "boolean"
  else "string"

/-- One variable entry of the output document; `values = none` models the
absence of the `values` key. -/
structure Variable where
  name : String
  type : String
  description : JsonValue
  values : Option (List String)
deriving Repr

/-- The body of the per-column loop of `parse_sql_file`: decode the comment,
classify the type, resolve permissible values (falling back to the mCIDE
registry), and emit the variable; `none` models the `AttributeError` crash
when the decoded comment is not a dict. -/
def processColumn (mcide_mappings : List (String × List String)) (table_name : String)
    (col : String × String × String) : Option Variable :=
  let (col_name, col_type, comment) := col
  let comment_data := parse_sql_comment comment
  let field_type := determine_field_type col_type col_name comment_data
  match pyGet comment_data "description" (.str "") with
  | none => none
  | some desc =>
    match pyGet comment_data "permissible" (.str "") with
    | none => none
    | some permissible =>
      let cv1 := extract_permissible_values permissible
      let cv2 := if pyFalsyOpt cv1 then get_mcide_values mcide_mappings table_name col_name else cv1
      if pyFalsyOpt cv2 then
        some { name := col_name, type := field_type, description := desc, values := none }
      else
        some { name := col_name, type := "categorical", description := desc, values := cv2 }

/-- The placeholder table that `parse_sql_file` skips unconditionally. -/
def placeholderTable : String := "medication_admin_intermittent"

/-- Python dict assignment `d[k] = v`: overwrite in place when the key
exists (keeping its insertion position), else append. -/
def dictSet {α : Type} (d : List (String × α)) (k : String) (v : α) : List (String × α) :=
  if d.any (fun p => p.1 == k) then
    d.map (fun p => if p.1 == k then (k, v) else p)
  else d ++ [(k, v)]

/-- Per-column loop lifted to a column list; `none` aborts the run at the
first crashing column, as the Python exception would. -/
def mapMO {α β : Type} (f : α → Option β) : List α → Option (List β)
  | [] => some []
  | a :: l =>
    match f a with
    | some b =>
      match mapMO f l with
      | some bs => some (b :: bs)
      | none => none
    | none => none

/-- The table loop of `parse_sql_file`, with its accumulator (`self.tables`)
explicit. -/
def foldTables (mcide_mappings : List (String × List String)) :
    List (String × List (String × String × String)) →
    List (String × List Variable) → Option (List (String × List Variable))
  | [], acc => some acc
  | tp :: rest, acc =>
    if tp.1 == placeholderTable then foldTables mcide_mappings rest acc
    else
      match mapMO (processColumn mcide_mappings tp.1) tp.2 with
      | some vars => foldTables mcide_mappings rest (dictSet acc tp.1 vars)
      | none => none

/-- Method `parse_sql_file`, as a function of the table-block match list
(table name × column triples, the data the regex front-end yields) and the
loaded registry; the result is `self.tables`, `none` modelling an aborted
run. -/
def parse_sql_file (table_patterns : List (String × List (String × String × String)))
    (mcide_mappings : List (String × List String)) : Option (List (String × List Variable)) :=
  foldTables mcide_mappings table_patterns []

/-- The Field Classifier of the specification: rules evaluated in order,
case-insensitively on the declared type (`classify(declaredType, columnName)`). -/
def fieldClassifierSpec (declaredType columnName : String) : String :=
  let t := pyUpper declaredType
  if pyContains t "DATETIME" || pyContains t "TIMESTAMP" then "datetime"
  else if pyContains t "DATE" then
    if pyContains columnName "birth_date" then "date" else "datetime"
  else if pyContains t "INT" || pyContains t "FLOAT" || pyContains t "DOUBLE"
      || pyContains t "DECIMAL" then "numeric"
  else if pyContains t "BOOL" then "boolean"
  else "string"

/-- The classifier never produces the categorical type: only the resolver
override does. -/
lemma determine_ne_categorical (t n : String) (cd : JsonValue) :
    determine_field_type t n cd ≠ "categorical" := by
  simp only [determine_field_type]
  intro h
  split_ifs at h <;> simp_all

/-- A non-falsy optional value list is a `some` of a non-empty list. -/
lemma pyFalsyOpt_eq_false {o : Option (List String)} (h : pyFalsyOpt o = false) :
    ∃ a l, o = some (a :: l) := by
  cases o with
  | none => simp [pyFalsyOpt] at h
  | some l =>
    cases l with
    | nil => simp [pyFalsyOpt] at h
    | cons a t => exact ⟨a, t, rfl⟩

/-- A successful association-list lookup exhibits a member with that key. -/
lemma lookupAssoc_mem {α : Type} :
    ∀ (l : List (String × α)) (k : String) (v : α),
      lookupAssoc l k = some v → ∃ p ∈ l, p.1 = k ∧ p.2 = v := by
  intro l
  induction l with
  | nil => intro k v h; simp [lookupAssoc] at h
  | cons p rest ih =>
    intro k v h
    rw [lookupAssoc] at h
    by_cases hk : p.1 == k
    · rw [if_pos hk] at h
      exact ⟨p, List.mem_cons_self p rest, by simpa using hk, by simpa using h⟩
    · rw [if_neg hk] at h
      obtain ⟨q, hq, hk2, hv2⟩ := ih k v h
      exact ⟨q, List.mem_cons_of_mem p hq, hk2, hv2⟩

/-- A successful association-list lookup makes the membership scan succeed. -/
lemma lookupAssoc_any {α : Type} :
    ∀ (l : List (String × α)) (k : String) (v : α),
      lookupAssoc l k = some v → l.any (fun p => p.1 == k) = true := by
  intro l
  induction l with
  | nil => intro k v h; simp [lookupAssoc] at h
  | cons p rest ih =>
    intro k v h
    rw [lookupAssoc] at h
    by_cases hk : p.1 == k
    · simp [List.any_cons, hk]
    · rw [if_neg hk] at h
      simp [List.any_cons, ih k v h]

/-- Every identifier recorded in `field_mappings` is a non-empty string. -/
lemma field_mappings_nonempty : ∀ p ∈ field_mappings, p.2 ≠ "" := by
  decide

/-- When the mapped identifier is found in the loaded registry, the lookup
returns exactly the registered list. -/
lemma get_mcide_values_eq (reg : List (String × List String)) (t n key : String)
    (vs : List String)
    (hkey : lookupAssoc field_mappings n = some key)
    (hreg : lookupAssoc reg key = some vs) :
    get_mcide_values reg t n = some vs := by
  have hk0 : key ≠ "" := by
    obtain ⟨p, hp, _, hv⟩ := lookupAssoc_mem field_mappings n key hkey
    exact hv ▸ field_mappings_nonempty p hp
  have hany := lookupAssoc_any reg key vs hreg
  unfold get_mcide_values
  rw [hkey]
  dsimp only
  rw [if_pos (by simp [hany, hk0])]
  exact hreg

/-- Replacement is the identity when a character of the pattern does not
occur in the subject. -/
lemma listReplace_not_mem (c : Char) :
    ∀ (fuel : Nat) (pat rep l : List Char),
      c ∈ pat → c ∉ l → listReplace fuel pat rep l = l := by
  intro fuel
  induction fuel with
  | zero => intro pat rep l _ _; rfl
  | succ n ih =>
    intro pat rep l hc hn
    cases l with
    | nil => rfl
    | cons a rest =>
      have hpre : pat.isPrefixOf (a :: rest) = false := by
        cases hp : pat.isPrefixOf (a :: rest)
        · rfl
        · exfalso
          have hpref : pat <+: (a :: rest) := List.isPrefixOf_iff_prefix.mp hp
          exact hn (hpref.subset hc)
      rw [listReplace]
      simp only [hpre, Bool.false_and, Bool.false_eq_true, if_false]
      rw [ih pat rep rest hc (fun h => hn (List.mem_cons_of_mem a h))]

/-- Right-stripping is the identity when no character of the subject is in
the stripped set. -/
lemma pyRstrip_id (chars : List Char) (s : String)
    (h : ∀ c ∈ s.data, chars.contains c = false) :
    pyRstrip chars s = s := by
  unfold pyRstrip
  have hd : s.data.reverse.dropWhile (fun c => chars.contains c) = s.data.reverse := by
    cases hr : s.data.reverse with
    | nil => simp
    | cons a t =>
      have ha : a ∈ s.data := by
        have : a ∈ s.data.reverse := by rw [hr]; exact List.mem_cons_self a t
        simpa using this
      rw [List.dropWhile_cons, h a ha]
      simp
  rw [hd, List.reverse_reverse]

/-- The comment preprocessing is the identity on apostrophe-free text, which
is exactly what the column regex group `([^\x27]+)` delivers. -/
lemma commentTransform_id (s : String) (h : apos ∉ s.data) : commentTransform s = s := by
  unfold commentTransform
  have h1 : pyReplace s commentPat "" = s := by
    unfold pyReplace
    rw [listReplace_not_mem apos _ _ _ _ (by decide) h]
  rw [h1]
  apply pyRstrip_id
  intro c hc
  have : c ≠ apos := fun he => h (he ▸ hc)
  simp [List.contains, this]

/-- On apostrophe-free annotation text, a decode failure produces the
fallback dict verbatim. -/
lemma parse_sql_comment_fallback (c : String) (hq : apos ∉ c.data)
    (hfail : jsonLoads c = none) :
    parse_sql_comment c =
      .obj [("description", .str c), ("permissible", .str "No restriction")] := by
  unfold parse_sql_comment
  rw [commentTransform_id c hq, hfail]

/-- The bracketed branch of `extract_permissible_values` applies the
split-strip-filter pipeline. -/
lemma extract_bracket (s : String) (h1 : pyStartsWith s "[" = true)
    (h2 : pyEndsWith s "]" = true) :
    extract_permissible_values (.str s) = some (bracketValues s) := by
  have hne : (s == "") = false := by
    cases he : s == ""
    · rfl
    · exfalso
      have : s = "" := by simpa using he
      subst this
      exact absurd h1 (by decide)
  have hnr : (s == "No restriction") = false := by
    cases he : s == "No restriction"
    · rfl
    · exfalso
      have : s = "No restriction" := by simpa using he
      subst this
      exact absurd h1 (by decide)
  unfold extract_permissible_values
  simp only [pyFalsy, isNoRestriction, hne, hnr, Bool.or_self, Bool.false_eq_true,
    if_false, pyStr, h1, h2, Bool.and_self, if_true]

/-! Concrete fixtures used by witnesses and counterexamples. -/

/-- A well-formed annotation with a no-restriction permissible marker. -/
def cmtNoRestr : String :=
  "\x7b\"description\":\"sex\",\"permissible\":\"No restriction\"\x7d"

/-- A well-formed annotation whose permissible marker is lower-case. -/
def cmtLowerNoRestr : String :=
  "\x7b\"description\":\"sex\",\"permissible\":\"no restriction\"\x7d"

/-- A well-formed annotation whose permissible field is the bracketed empty
string. -/
def cmtEmptyBracket : String :=
  "\x7b\"description\":\"d\",\"permissible\":\"[]\"\x7d"

/-- A well-formed annotation with a bracketed permissible-value string. -/
def cmtBracket : String :=
  "\x7b\"description\":\"g\",\"permissible\":\"[\\\"Male\\\", \\\"Female\\\", \\\"Unknown\\\"]\"\x7d"

/-- A registry whose sex-category entry was loaded from a two-row CSV. -/
def regMF : List (String × List String) :=
  [("patient_sex_categories", loadCsvValues [["Male", "x"], ["Female", ""]])]

/-- A registry whose sex-category entry is present but empty. -/
def regEmptySex : List (String × List String) :=
  [("patient_sex_categories", [])]

/-- The variable produced for a registry-resolved sex-category column. -/
def varW : Variable :=
  ⟨"sex_category", "categorical", .str "sex", some ["Male", "Female"]⟩

/-- A single-table match list with one sex-category column. -/
def tpsW : List (String × List (String × String × String)) :=
  [("patient", [("sex_category", "VARCHAR(10)", cmtNoRestr)])]

/-- A match list that contains the placeholder table with a well-formed
annotated column, followed by a data table. -/
def tps8 : List (String × List (String × String × String)) :=
  [("medication_admin_intermittent", [("med_category", "VARCHAR(10)", cmtNoRestr)]),
   ("patient", [("sex_category", "VARCHAR(10)", cmtNoRestr)])]

/-- A sex-category column triple. -/
def colW : String × String × String := ("sex_category", "VARCHAR(10)", cmtNoRestr)

/-- C3: for every declared storage type, column name, and decoded comment
payload, the Field Classifier returns exactly the semantic type given by
the specification rules evaluated in order, case-insensitively on the
declared type (datetime/timestamp, date with the birth-date exception,
numeric, boolean, string). -/
theorem c3_field_classifier (declaredType columnName : String) (comment_data : JsonValue) :
    determine_field_type declaredType columnName comment_data =
      fieldClassifierSpec declaredType columnName := rfl

/-- C9: extraction is deterministic — on a fixed table-pattern list and a
fixed loaded registry, two runs of the extractor produce identical documents
(the embedding is a pure function of exactly these two inputs, matching the
deterministic regex scan and insertion-ordered dicts of the Python code). -/
theorem c9_deterministic (tps : List (String × List (String × String × String)))
    (reg : List (String × List String)) :
    parse_sql_file tps reg = parse_sql_file tps reg := rfl

/-- C4: on every column annotation (apostrophe-free, as the column regex
guarantees) whose structured decoding fails, the Comment Metadata Parser
returns the raw annotation text as the description together with the
no-restriction marker, and the per-column pipeline still produces a
variable — the decode error is absorbed, not propagated. -/
theorem c4_comment_fallback (reg : List (String × List String)) (t n ty comment : String)
    (hq : apos ∉ comment.data) (hfail : jsonLoads comment = none) :
    parse_sql_comment comment =
      .obj [("description", .str comment), ("permissible", .str "No restriction")] ∧
    processColumn reg t (n, ty, comment) ≠ none := by
  have hp := parse_sql_comment_fallback comment hq hfail
  refine ⟨hp, ?_⟩
  unfold processColumn
  dsimp only
  rw [hp]
  simp only [pyGet]
  repeat' split
  all_goals simp

/-- Witness for C4 at the malformed annotation `not json`. -/
theorem c4_comment_fallback_witness :
    (apos ∉ ("not json" : String).data) ∧ jsonLoads "not json" = none ∧
    (parse_sql_comment "not json" =
      .obj [("description", .str "not json"), ("permissible", .str "No restriction")] ∧
     processColumn [] "patient" ("sex_category", "VARCHAR(10)", "not json") ≠ none) :=
  ⟨by decide, rfl,
   c4_comment_fallback [] "patient" "sex_category" "VARCHAR(10)" "not json" (by decide) rfl⟩

/-- C1 (amended): for every column whose inline resolution yields no values,
whose name maps through `field_mappings` to an identifier held by the
loaded registry, and whose registry list is non-empty, the output variable
is categorical and its values are exactly the registry list, in loaded
order.  (The non-emptiness proviso is forced: an empty registry list is
falsy in Python and leaves the column on its classifier type.) -/
theorem c1_registry_resolution (reg : List (String × List String))
    (t n ty comment key : String) (desc perm : JsonValue) (vs : List String)
    (hdesc : pyGet (parse_sql_comment comment) "description" (.str "") = some desc)
    (hperm : pyGet (parse_sql_comment comment) "permissible" (.str "") = some perm)
    (hstep1 : pyFalsyOpt (extract_permissible_values perm) = true)
    (hkey : lookupAssoc field_mappings n = some key)
    (hreg : lookupAssoc reg key = some vs)
    (hvs : vs ≠ []) :
    processColumn reg t (n, ty, comment) = some ⟨n, "categorical", desc, some vs⟩ := by
  obtain ⟨a, l, rfl⟩ := List.exists_cons_of_ne_nil hvs
  have hmc := get_mcide_values_eq reg t n key (a :: l) hkey hreg
  unfold processColumn
  dsimp only
  rw [hdesc]
  dsimp only
  rw [hperm]
  dsimp only
  simp only [hstep1, hmc]
  simp [pyFalsyOpt]

/-- Witness for C1 on a sex-category column resolved against a registry
entry loaded from a two-row CSV. -/
theorem c1_registry_resolution_witness :
    processColumn regMF "patient" ("sex_category", "VARCHAR(10)", cmtNoRestr) =
      some ⟨"sex_category", "categorical", .str "sex", some ["Male", "Female"]⟩ :=
  c1_registry_resolution regMF "patient" "sex_category" "VARCHAR(10)" cmtNoRestr
    "patient_sex_categories" (.str "sex") (.str "No restriction") ["Male", "Female"]
    rfl rfl rfl rfl rfl (by decide)

/-- C1 counterexample: all conditions of the claim hold (no inline values,
mapped column name, registry holds the identifier), yet with an empty
registry list the output variable keeps the classifier type `string` and
carries no values, instead of being categorical with the registry list. -/
theorem c1_empty_registry_list_cex :
    pyGet (parse_sql_comment cmtNoRestr) "permissible" (.str "") =
      some (.str "No restriction") ∧
    pyFalsyOpt (extract_permissible_values (.str "No restriction")) = true ∧
    lookupAssoc field_mappings "sex_category" = some "patient_sex_categories" ∧
    lookupAssoc regEmptySex "patient_sex_categories" = some [] ∧
    processColumn regEmptySex "patient" ("sex_category", "VARCHAR(10)", cmtNoRestr) =
      some ⟨"sex_category", "string", .str "sex", none⟩ ∧
    ("string" : String) ≠ "categorical" :=
  ⟨rfl, rfl, rfl, rfl, rfl, by decide⟩

/-- C2 (amended): for every column whose decoded permissible field is a
string bracketed by `[` and `]`, the resolver splits the inner text on
commas, strips surrounding space and double-quote characters from each
piece and drops empty pieces; when the resulting list is non-empty the
output variable is categorical with exactly those values, regardless of
the declared SQL type.  (The non-emptiness proviso is forced: an all-empty
split is falsy in Python and leaves the column on its classifier type.) -/
theorem c2_bracketed_permissible (reg : List (String × List String))
    (t n ty comment : String) (desc : JsonValue) (s : String)
    (hdesc : pyGet (parse_sql_comment comment) "description" (.str "") = some desc)
    (hperm : pyGet (parse_sql_comment comment) "permissible" (.str "") = some (.str s))
    (h1 : pyStartsWith s "[" = true) (h2 : pyEndsWith s "]" = true)
    (hne : bracketValues s ≠ []) :
    extract_permissible_values (.str s) = some (bracketValues s) ∧
    processColumn reg t (n, ty, comment) = some ⟨n, "categorical", desc, some (bracketValues s)⟩ := by
  have hx := extract_bracket s h1 h2
  refine ⟨hx, ?_⟩
  obtain ⟨a, l, hal⟩ := List.exists_cons_of_ne_nil hne
  unfold processColumn
  dsimp only
  rw [hdesc]
  dsimp only
  rw [hperm]
  dsimp only
  simp only [hx, hal]
  simp [pyFalsyOpt]

/-- Witness for C2 on the permissible string holding Male, Female and
Unknown in brackets. -/
theorem c2_bracketed_permissible_witness :
    extract_permissible_values (.str "[\"Male\", \"Female\", \"Unknown\"]") =
      some ["Male", "Female", "Unknown"] ∧
    processColumn [] "patient" ("sex_cat", "VARCHAR(10)", cmtBracket) =
      some ⟨"sex_cat", "categorical", .str "g", some ["Male", "Female", "Unknown"]⟩ :=
  c2_bracketed_permissible [] "patient" "sex_cat" "VARCHAR(10)" cmtBracket
    (.str "g") "[\"Male\", \"Female\", \"Unknown\"]" rfl rfl rfl rfl (by decide)

/-- C2 counterexample: the permissible string `[]` is bracketed, yet the
split yields no values, so the output variable keeps its classifier type
`string` and carries no values instead of becoming categorical. -/
theorem c2_empty_bracket_cex :
    pyGet (parse_sql_comment cmtEmptyBracket) "permissible" (.str "") = some (.str "[]") ∧
    pyStartsWith "[]" "[" = true ∧ pyEndsWith "[]" "]" = true ∧
    processColumn [] "misc" ("foo", "VARCHAR(10)", cmtEmptyBracket) =
      some ⟨"foo", "string", .str "d", none⟩ ∧
    ("string" : String) ≠ "categorical" :=
  ⟨rfl, rfl, rfl, rfl, by decide⟩

/-- C6 (amended): for every column whose decoded permissible field is the
case-sensitive literal `no restriction`, inline resolution yields no
values; when additionally the column name finds no non-empty registry list
through `field_mappings`, the output variable keeps the Field Classifier
type and its values field is absent.  (The registry proviso is forced: the
mCIDE lookup still fires for such columns and can override the type to
categorical.) -/
theorem c6_no_restriction (reg : List (String × List String))
    (t n ty comment : String) (desc : JsonValue)
    (hdesc : pyGet (parse_sql_comment comment) "description" (.str "") = some desc)
    (hperm : pyGet (parse_sql_comment comment) "permissible" (.str "") =
      some (.str "no restriction"))
    (hreg : pyFalsyOpt (get_mcide_values reg t n) = true) :
    extract_permissible_values (.str "no restriction") = none ∧
    processColumn reg t (n, ty, comment) =
      some ⟨n, determine_field_type ty n (parse_sql_comment comment), desc, none⟩ := by
  refine ⟨rfl, ?_⟩
  unfold processColumn
  dsimp only
  rw [hdesc]
  dsimp only
  rw [hperm]
  dsimp only
  simp [show extract_permissible_values (.str "no restriction") = none from rfl,
    show pyFalsyOpt (none : Option (List String)) = true from rfl, hreg]

/-- Witness for C6 on a sex-category column with an empty registry. -/
theorem c6_no_restriction_witness :
    extract_permissible_values (.str "no restriction") = none ∧
    processColumn [] "patient" ("sex_category", "VARCHAR(10)", cmtLowerNoRestr) =
      some ⟨"sex_category",
        determine_field_type "VARCHAR(10)" "sex_category" (parse_sql_comment cmtLowerNoRestr),
        .str "sex", none⟩ :=
  c6_no_restriction [] "patient" "sex_category" "VARCHAR(10)" cmtLowerNoRestr
    (.str "sex") rfl rfl rfl

/-- C6 counterexample: the decoded permissible field is exactly the
case-sensitive literal `no restriction` and inline resolution yields
nothing, yet with a loaded registry entry for the mapped column name the
output variable becomes categorical with the registry values, so its type
differs from the classifier output `string` and its values field is
present. -/
theorem c6_registry_override_cex :
    pyGet (parse_sql_comment cmtLowerNoRestr) "permissible" (.str "") =
      some (.str "no restriction") ∧
    extract_permissible_values (.str "no restriction") = none ∧
    determine_field_type "VARCHAR(10)" "sex_category" (parse_sql_comment cmtLowerNoRestr) =
      "string" ∧
    processColumn regMF "patient" ("sex_category", "VARCHAR(10)", cmtLowerNoRestr) =
      some ⟨"sex_category", "categorical", .str "sex", some ["Male", "Female"]⟩ ∧
    ("categorical" : String) ≠ "string" :=
  ⟨rfl, rfl, rfl, rfl, by decide⟩

/-- C7 (amended): for every column whose (apostrophe-free) annotation fails
structured decoding, the output variable's description is the raw
annotation text verbatim and the annotation itself contributes no values;
the type is categorical exactly when the column name finds a non-empty
registry list through `field_mappings`, and never otherwise (the
classifier itself cannot produce categorical). -/
theorem c7_malformed_annotation (reg : List (String × List String))
    (t n ty comment : String)
    (hq : apos ∉ comment.data) (hfail : jsonLoads comment = none) :
    processColumn reg t (n, ty, comment) =
      some ⟨n,
        if pyFalsyOpt (get_mcide_values reg t n) then
          determine_field_type ty n (parse_sql_comment comment)
        else "categorical",
        .str comment,
        if pyFalsyOpt (get_mcide_values reg t n) then none else get_mcide_values reg t n⟩ ∧
    determine_field_type ty n (parse_sql_comment comment) ≠ "categorical" := by
  have hp := parse_sql_comment_fallback comment hq hfail
  refine ⟨?_, determine_ne_categorical ty n (parse_sql_comment comment)⟩
  unfold processColumn
  dsimp only
  rw [hp]
  simp only [pyGet]
  cases hf : pyFalsyOpt (get_mcide_values reg t n) with
  | true =>
    simp [show extract_permissible_values (.str "No restriction") = none from rfl,
      show pyFalsyOpt (none : Option (List String)) = true from rfl, hf, ← hp]
  | false =>
    simp [show extract_permissible_values (.str "No restriction") = none from rfl,
      show pyFalsyOpt (none : Option (List String)) = true from rfl, hf, ← hp]

/-- Witness for C7 at the malformed annotation `bad json` with an empty
registry. -/
theorem c7_malformed_annotation_witness :
    (apos ∉ ("bad json" : String).data) ∧
    (processColumn [] "patient" ("sex_category", "VARCHAR(10)", "bad json") =
      some ⟨"sex_category",
        if pyFalsyOpt (get_mcide_values [] "patient" "sex_category") then
          determine_field_type "VARCHAR(10)" "sex_category" (parse_sql_comment "bad json")
        else "categorical",
        .str "bad json",
        if pyFalsyOpt (get_mcide_values [] "patient" "sex_category") then none
        else get_mcide_values [] "patient" "sex_category"⟩ ∧
     determine_field_type "VARCHAR(10)" "sex_category" (parse_sql_comment "bad json") ≠
       "categorical") :=
  ⟨by decide,
   c7_malformed_annotation [] "patient" "sex_category" "VARCHAR(10)" "bad json" (by decide) rfl⟩

/-- C7 counterexample: a malformed annotation on a column whose name maps to
a loaded registry entry produces a variable whose description is the raw
text verbatim but whose type is categorical, contradicting the claim that
the type is never categorical for malformed annotations. -/
theorem c7_registry_categorical_cex :
    jsonLoads "bad json" = none ∧
    processColumn regMF "patient" ("sex_category", "VARCHAR(10)", "bad json") =
      some ⟨"sex_category", "categorical", .str "bad json", some ["Male", "Female"]⟩ :=
  ⟨rfl, rfl⟩

/-- The final branch of the per-column pipeline satisfies the values
invariant for any resolved value option. -/
lemma finalIf_inv (n ft : String) (desc : JsonValue) (cv2 : Option (List String))
    (v : Variable) (hft : ft ≠ "categorical")
    (h : (if pyFalsyOpt cv2 = true then
            some (⟨n, ft, desc, none⟩ : Variable)
          else some ⟨n, "categorical", desc, cv2⟩) = some v) :
    (v.values ≠ none ↔ v.type = "categorical") ∧ ∀ l, v.values = some l → l ≠ [] := by
  cases hc : pyFalsyOpt cv2 with
  | true =>
    rw [hc, if_pos rfl, Option.some.injEq] at h
    subst h
    constructor
    · simp [hft]
    · intro l hl
      simp at hl
  | false =>
    rw [hc, if_neg (by simp), Option.some.injEq] at h
    subst h
    obtain ⟨a, l, he⟩ := pyFalsyOpt_eq_false hc
    rw [he]
    constructor
    · simp
    · intro l2 hl2
      rw [Option.some.injEq] at hl2
      subst hl2
      simp

/-- Every variable emitted by the per-column pipeline satisfies the values
invariant: values present exactly for categorical type, and non-empty when
present. -/
lemma processColumn_inv (reg : List (String × List String)) (t : String)
    (c : String × String × String) (v : Variable)
    (h : processColumn reg t c = some v) :
    (v.values ≠ none ↔ v.type = "categorical") ∧ ∀ l, v.values = some l → l ≠ [] := by
  obtain ⟨n, ty, cm⟩ := c
  unfold processColumn at h
  dsimp only at h
  split at h
  · exact absurd h (by simp)
  · split at h
    · exact absurd h (by simp)
    · exact finalIf_inv n _ _ _ v (determine_ne_categorical ty n _) h

/-- A successful effectful map exhibits, for each output, an input that maps
to it. -/
lemma mapMO_mem {α β : Type} (f : α → Option β) :
    ∀ (l : List α) (bs : List β), mapMO f l = some bs →
      ∀ b ∈ bs, ∃ a ∈ l, f a = some b := by
  intro l
  induction l with
  | nil =>
    intro bs h b hb
    rw [mapMO, Option.some.injEq] at h
    subst h
    simp at hb
  | cons a rest ih =>
    intro bs h b hb
    rw [mapMO] at h
    split at h
    · rename_i b0 hfa
      split at h
      · rename_i bs0 hrest
        rw [Option.some.injEq] at h
        subst h
        cases hb with
        | head => exact ⟨a, List.mem_cons_self a rest, hfa⟩
        | tail _ hbt =>
          obtain ⟨a2, ha2, hfa2⟩ := ih bs0 hrest b hbt
          exact ⟨a2, List.mem_cons_of_mem a ha2, hfa2⟩
      · exact absurd h (by simp)
    · exact absurd h (by simp)

/-- A member of a dict after assignment is an old member or the new binding. -/
lemma dictSet_mem {α : Type} (d : List (String × α)) (k : String) (v : α)
    (p : String × α) (hp : p ∈ dictSet d k v) : p ∈ d ∨ p = (k, v) := by
  unfold dictSet at hp
  split at hp
  · obtain ⟨q, hq, he⟩ := List.mem_map.mp hp
    by_cases hqk : q.1 == k
    · right
      rw [if_pos hqk] at he
      exact he.symm
    · left
      rw [if_neg hqk] at he
      exact he ▸ hq
  · rcases List.mem_append.mp hp with h | h
    · left
      exact h
    · right
      simpa using h

/-- The table loop preserves any per-variable invariant established by the
per-column pipeline. -/
lemma foldTables_inv {P : Variable → Prop} (reg : List (String × List String))
    (hP : ∀ t c v, processColumn reg t c = some v → P v) :
    ∀ (tps : List (String × List (String × String × String)))
      (acc doc : List (String × List Variable)),
      (∀ q ∈ acc, ∀ v ∈ q.2, P v) →
      foldTables reg tps acc = some doc →
      ∀ q ∈ doc, ∀ v ∈ q.2, P v := by
  intro tps
  induction tps with
  | nil =>
    intro acc doc hacc h
    rw [foldTables, Option.some.injEq] at h
    subst h
    exact hacc
  | cons tp rest ih =>
    intro acc doc hacc h
    rw [foldTables] at h
    split at h
    · exact ih acc doc hacc h
    · split at h
      · rename_i vars hvars
        refine ih _ doc ?_ h
        intro q hq v hv
        rcases dictSet_mem acc tp.1 vars q hq with hold | hnew
        · exact hacc q hold v hv
        · subst hnew
          obtain ⟨c, _, hpc⟩ := mapMO_mem _ tp.2 vars hvars v hv
          exact hP tp.1 c v hpc
      · exact absurd h (by simp)

/-- C5: in every document the extractor produces, each variable has its
values field present exactly when its type is categorical, and whenever
present the value list is non-empty. -/
theorem c5_values_iff_categorical (tps : List (String × List (String × String × String)))
    (reg : List (String × List String)) (doc : List (String × List Variable))
    (h : parse_sql_file tps reg = some doc)
    (q : String × List Variable) (hq : q ∈ doc) (v : Variable) (hv : v ∈ q.2) :
    (v.values ≠ none ↔ v.type = "categorical") ∧ ∀ l, v.values = some l → l ≠ [] :=
  foldTables_inv reg (fun t c v hpc => processColumn_inv reg t c v hpc)
    tps [] doc (by simp) h q hq v hv

/-- Witness for C5 on the document extracted from a one-table input. -/
theorem c5_values_iff_categorical_witness :
    ((varW.values ≠ none ↔ varW.type = "categorical") ∧
     (varW.values = some ["Male", "Female"] → ["Male", "Female"] ≠ [])) :=
  ⟨(c5_values_iff_categorical tpsW regMF [("patient", [varW])] rfl
      ("patient", [varW]) (List.mem_singleton.mpr rfl) varW (List.mem_singleton.mpr rfl)).1,
   (c5_values_iff_categorical tpsW regMF [("patient", [varW])] rfl
      ("patient", [varW]) (List.mem_singleton.mpr rfl) varW
      (List.mem_singleton.mpr rfl)).2 ["Male", "Female"]⟩

/-- Keys of the accumulator never include the placeholder table. -/
lemma foldTables_keys (reg : List (String × List String)) :
    ∀ (tps : List (String × List (String × String × String)))
      (acc doc : List (String × List Variable)),
      (∀ q ∈ acc, q.1 ≠ placeholderTable) →
      foldTables reg tps acc = some doc →
      ∀ q ∈ doc, q.1 ≠ placeholderTable := by
  intro tps
  induction tps with
  | nil =>
    intro acc doc hacc h
    rw [foldTables, Option.some.injEq] at h
    subst h
    exact hacc
  | cons tp rest ih =>
    intro acc doc hacc h
    rw [foldTables] at h
    split at h
    · exact ih acc doc hacc h
    · rename_i hne
      have htp : tp.1 ≠ placeholderTable := by
        intro he
        exact hne (by simp [he])
      split at h
      · rename_i vars _
        refine ih _ doc ?_ h
        intro q hq
        rcases dictSet_mem acc tp.1 vars q hq with hold | hnew
        · exact hacc q hold
        · rw [hnew]
          exact htp
      · exact absurd h (by simp)

/-- C8: the placeholder table `medication_admin_intermittent` never appears
as a key of the output document, for any input match list and registry,
even when the placeholder block is present and well-formed. -/
theorem c8_placeholder_skipped (tps : List (String × List (String × String × String)))
    (reg : List (String × List String)) (doc : List (String × List Variable))
    (h : parse_sql_file tps reg = some doc)
    (q : String × List Variable) (hq : q ∈ doc) :
    q.1 ≠ placeholderTable :=
  foldTables_keys reg tps [] doc (by simp) h q hq

/-- Witness for C8 on an input whose first block is the placeholder table
with a well-formed annotated column. -/
theorem c8_placeholder_skipped_witness :
    ("patient", [varW]).1 ≠ placeholderTable :=
  c8_placeholder_skipped tps8 regMF [("patient", [varW])] rfl
    ("patient", [varW]) (List.mem_singleton.mpr rfl)

/-- C10: when the same (non-placeholder) table name heads two blocks of the
match list, the output document holds exactly one entry for that name,
whose variable list comes solely from the last such block, while the key
still sits at the position of the name's first appearance (before the
interposed distinct table). -/
theorem c10_duplicate_table (reg : List (String × List String)) (name other : String)
    (c1 co c2 : List (String × String × String)) (vars1 varsO vars2 : List Variable)
    (hname : name ≠ placeholderTable) (hother : other ≠ placeholderTable)
    (hne : other ≠ name)
    (h1 : mapMO (processColumn reg name) c1 = some vars1)
    (hO : mapMO (processColumn reg other) co = some varsO)
    (h2 : mapMO (processColumn reg name) c2 = some vars2) :
    parse_sql_file [(name, c1), (other, co), (name, c2)] reg =
      some [(name, vars2), (other, varsO)] := by
  have hb1 : (name == placeholderTable) = false := beq_eq_false_iff_ne.mpr hname
  have hb2 : (other == placeholderTable) = false := beq_eq_false_iff_ne.mpr hother
  have hb3 : (name == other) = false := beq_eq_false_iff_ne.mpr (Ne.symm hne)
  have hb4 : (other == name) = false := beq_eq_false_iff_ne.mpr hne
  unfold parse_sql_file
  rw [foldTables]
  simp only [hb1, Bool.false_eq_true, if_false, h1]
  rw [foldTables]
  simp only [hb2, Bool.false_eq_true, if_false, hO]
  rw [foldTables]
  simp only [hb1, Bool.false_eq_true, if_false, h2]
  rw [foldTables]
  simp [dictSet, hb3, hb4, hne, Ne.symm hne]

/-- Witness for C10: the table name patient heads the first and third
blocks; the output holds one patient entry, with the variables of the
third block, listed before the interposed adt table. -/
theorem c10_duplicate_table_witness :
    parse_sql_file [("patient", []), ("adt", [colW]), ("patient", [colW])] regMF =
      some [("patient", [varW]), ("adt", [varW])] :=
  c10_duplicate_table regMF "patient" "adt" [] [colW] [colW] [] [varW] [varW]
    (by decide) (by decide) (by decide) rfl rfl rfl

end CLIF
